import Mathlib

/-!
Verification of the LedgerDeskMobile data layer against its specification.

JavaScript strings are embedded as lists of characters (`Str`), and the
string operations the source uses (split, join, trim, substring search,
lexicographic comparison) are defined by structural recursion so that every
definition is executable.  Money amounts are integers (cents); the two
display percentages that the source rounds with `toFixed(2)` are modelled
as rationals rounded to two decimal places.
-/

namespace LedgerDesk

/-- A JavaScript string, embedded as its list of characters. -/
abbrev Str := List Char

/-- Converts a Lean string literal to the embedded string type. -/
def str (s : String) : Str := s.data

/-- JS `input.split(sep)` for a one-character separator. -/
def splitOnChar (sep : Char) : Str → List Str
  | [] => [[]]
  | c :: rest =>
    let r := splitOnChar sep rest
    if c = sep then [] :: r
    else
      match r with
      | [] => [[c]]
      | h :: t => (c :: h) :: t

/-- Joins path segments with `/`, as `Array.prototype.join('/')` does. -/
def joinSlash : List Str → Str
  | [] => []
  | [s] => s
  | s :: rest => s ++ '/' :: joinSlash rest

/-- JS `value.replace(/^\/+|\/+$/g, '')` from `trimSlashes` in the path library. -/
def trimSlashes (s : Str) : Str :=
  ((s.dropWhile (fun c => c = '/')).reverse.dropWhile (fun c => c = '/')).reverse

/-- JS `String.prototype.trim()`. -/
def trimStr (s : Str) : Str :=
  ((s.dropWhile Char.isWhitespace).reverse.dropWhile Char.isWhitespace).reverse

/-- Substring containment, as JS `String.prototype.includes(pat)`. -/
def hasSubstring (pat : Str) : Str → Bool
  | [] => pat.isEmpty
  | c :: rest => pat.isPrefixOf (c :: rest) || hasSubstring pat rest

/-- JS `input.replace(/\\/g, '/')`: every backslash becomes a forward slash. -/
def backslashesToSlashes (s : Str) : Str :=
  s.map (fun c => if c = '\\' then '/' else c)

/-- `joinPath` from the path library: keep the parts with non-blank content,
strip their leading and trailing slashes, and join with `/`. -/
def joinPath (parts : List Str) : Str :=
  joinSlash ((parts.filter (fun p => (trimStr p).length > 0)).map trimSlashes)

/-- `normalizePath` from the path library: split on `/`, drop empty and `.`
segments, let `..` pop the previously accepted segment (doing nothing when
there is none), and re-join, keeping a leading slash for absolute inputs. -/
def normalizePath (input : Str) : Str :=
  let absolute := (str "/").isPrefixOf input
  let segments := (splitOnChar '/' input).filter (fun s => s.length > 0)
  let output := segments.foldl
    (fun (out : List Str) seg =>
      if seg = str "." then out
      else if seg = str ".." then (if out.length > 0 then out.dropLast else out)
      else out ++ [seg]) []
  let built := joinSlash output
  if absolute then '/' :: built else built

/-- `isUnsafeRelativePath` from the path library: normalize (after turning
backslashes into slashes) and then test for a leading slash, a `../`
substring, or an exact `..`. -/
def isUnsafeRelativePath (input : Str) : Bool :=
  let normalized := normalizePath (backslashesToSlashes input)
  (str "/").isPrefixOf normalized
    || hasSubstring (str "../") normalized
    || normalized = str ".."

/-- The entry-name check of `BackupService.validateZip`: the archive is
flagged with the `ZIP contains invalid paths` error exactly when some entry
name is judged unsafe. -/
def zipEntriesPathError (entries : List Str) : Bool :=
  entries.any isUnsafeRelativePath

/-- The media-entry selection of `BackupService.importZip`: an entry is
written when its name starts with `media/`, does not end with `/`, and its
remainder after the prefix is non-empty and not judged unsafe. -/
def mediaRelOf (entryName : Str) : Option Str :=
  if !((str "media/").isPrefixOf entryName) || (str "/").isSuffixOf entryName then none
  else
    let rel := entryName.drop 6
    if rel = [] || isUnsafeRelativePath rel then none
    else some rel

/-- The media write targets of `BackupService.importZip`: for each selected
entry, the destination is the active media root joined with the relative
path taken from the entry name. -/
def eligibleWrites (entries : List (Str × List Nat)) (root : Str) : List (Str × List Nat) :=
  entries.filterMap (fun e => (mediaRelOf e.1).map (fun rel => (joinPath [root, rel], e.2)))

/-- The media-copy loop of `BackupService.importZip`, with the filesystem
write as an explicit fallible function.  Returns the destinations written
and, when a write fails, the message of the exception that escapes the
loop (the source has no try/catch around the write). -/
def importMedia (writeFile : Str → List Nat → Except Str Unit) :
    List (Str × List Nat) → Str → List Str × Option Str
  | [], _ => ([], none)
  | e :: rest, root =>
    match mediaRelOf e.1 with
    | none => importMedia writeFile rest root
    | some rel =>
      let dest := joinPath [root, rel]
      match writeFile dest e.2 with
      | .error msg => ([], some msg)
      | .ok _ =>
        let r := importMedia writeFile rest root
        (dest :: r.1, r.2)

/-- Outcome of the tail of `importZip`: the media files written, whether
the final `persistRaw` was reached, and the error that propagated out of
`importZip`, if any. -/
structure ImportOutcome where
  writtenMedia : List Str
  persisted : Bool
  errorMsg : Option Str
deriving DecidableEq

/-- The media phase of `BackupService.importZip` followed by `persistRaw`:
a write failure propagates as an error and skips the persist; otherwise
the persist runs and the call returns normally. -/
def importZipMedia (writeFile : Str → List Nat → Except Str Unit)
    (entries : List (Str × List Nat)) (root : Str) : ImportOutcome :=
  let r := importMedia writeFile entries root
  match r.2 with
  | some e => { writtenMedia := r.1, persisted := false, errorMsg := some e }
  | none => { writtenMedia := r.1, persisted := true, errorMsg := none }

/-- The table list `EXPORT_TABLES` of `BackupService`. -/
def EXPORT_TABLES : List Str :=
  [str "categories", str "tags", str "purchases", str "purchase_images",
   str "purchase_tags", str "monthly_budgets", str "ocr_extractions",
   str "app_settings", str "dataset_snapshots"]

/-- The data `exportZip` reads: the encoded manifest, the JSON and CSV
serializations per table, the media rows with their bytes, and the encoder
for the checksum map.  Byte contents are opaque to the archive layout. -/
structure ExportSource where
  manifestBytes : List Nat
  tableJsonBytes : Str → List Nat
  tableCsvBytes : Str → List Nat
  mediaRelativePaths : List Str
  mediaBytes : Str → List Nat
  encodeChecksums : List (Str × Str) → List Nat

/-- `BackupService.exportZip`, parameterized over the hash function: writes
`manifest.json`, one `json/<table>.json` and one `csv/<table>.csv` per
table, and one `media/<relativePath>` per media row, recording a checksum
for each of them (the manifest included), then appends `checksums.json`
itself without a checksum entry.  Returns the archive entries and the
checksum map in insertion order. -/
def exportZip (hash : List Nat → Str) (source : ExportSource) :
    List (Str × List Nat) × List (Str × Str) :=
  let jsonEntries := EXPORT_TABLES.map
    (fun t => (str "json/" ++ t ++ str ".json", source.tableJsonBytes t))
  let csvEntries := EXPORT_TABLES.map
    (fun t => (str "csv/" ++ t ++ str ".csv", source.tableCsvBytes t))
  let mediaEntries := source.mediaRelativePaths.map
    (fun rel => (str "media/" ++ backslashesToSlashes rel, source.mediaBytes rel))
  let dataEntries := (str "manifest.json", source.manifestBytes)
    :: (jsonEntries ++ csvEntries ++ mediaEntries)
  let checksums := dataEntries.map (fun e => (e.1, hash e.2))
  (dataEntries ++ [(str "checksums.json", source.encodeChecksums checksums)], checksums)

/-- A constant hash function, used to evaluate `exportZip` on a concrete input. -/
def constHash (_ : List Nat) : Str := str "h"

/-- An export source with empty tables and no media, used to evaluate
`exportZip` on a concrete input. -/
def emptyExportSource : ExportSource :=
  { manifestBytes := []
    tableJsonBytes := fun _ => []
    tableCsvBytes := fun _ => []
    mediaRelativePaths := []
    mediaBytes := fun _ => []
    encodeChecksums := fun _ => [] }

/-- A write function that fails on the destination `r/a.png`, used to
evaluate the import media phase on a concrete input. -/
def writeFailOnA (dest : Str) (_ : List Nat) : Except Str Unit :=
  if dest = str "r/a.png" then .error (str "disk full") else .ok ()

/-- A write function that always succeeds, used to evaluate the import
media phase on a concrete input. -/
def writeAlwaysOk (_ : Str) (_ : List Nat) : Except Str Unit := .ok ()

/-- Runs a list of prepared media writes in order, stopping at the first
failure; `importMedia` is this runner applied to `eligibleWrites`. -/
def runWrites (writeFile : Str → List Nat → Except Str Unit) :
    List (Str × List Nat) → List Str × Option Str
  | [] => ([], none)
  | w :: rest =>
    match writeFile w.1 w.2 with
    | .error msg => ([], some msg)
    | .ok _ =>
      let r := runWrites writeFile rest
      (w.1 :: r.1, r.2)

/-- One snapshot descriptor of the dataset metadata file kept by
`PathsService`. -/
structure SnapshotMeta where
  id : Str
  label : Str
  createdAt : Str
  sourceZip : Option Str
  isActive : Bool

/-- The argument of `PathsService.addSnapshot`: a descriptor without the
`isActive` flag. -/
structure SnapshotInput where
  id : Str
  label : Str
  createdAt : Str
  sourceZip : Option Str

/-- `PathsService.activateSnapshot` on the snapshot list of the metadata
file: marks the snapshot with the given id active and every other one
inactive, failing (before any write) when no snapshot has that id. -/
def activateSnapshot (snapshots : List SnapshotMeta) (snapshotId : Str) :
    Except Str (List SnapshotMeta) :=
  let updated := snapshots.map (fun s =>
    if s.id = snapshotId then { s with isActive := true } else { s with isActive := false })
  if snapshots.any (fun s => decide (s.id = snapshotId)) then Except.ok updated
  else Except.error (str "Snapshot does not exist.")

/-- `PathsService.addSnapshot`: deactivates the existing snapshots when
`setActive` is set, leaves them untouched otherwise, and appends the new
descriptor with `isActive := setActive`. -/
def addSnapshot (snapshots : List SnapshotMeta) (input : SnapshotInput) (setActive : Bool) :
    List SnapshotMeta :=
  (snapshots.map (fun item =>
      { item with isActive := if setActive then false else item.isActive }))
    ++ [{ id := input.id, label := input.label, createdAt := input.createdAt,
          sourceZip := input.sourceZip, isActive := setActive }]

/-- `PathsService.ensureActiveSnapshot`: keeps the metadata unchanged when
some snapshot is active, and otherwise replaces the whole list with a
single freshly created default snapshot marked active. -/
def ensureActiveSnapshot (snapshots : List SnapshotMeta) (freshId createdAt : Str) :
    List SnapshotMeta :=
  match snapshots.find? (fun s => s.isActive) with
  | some _ => snapshots
  | none =>
    [{ id := freshId, label := str "Default Dataset", createdAt := createdAt,
       sourceZip := none, isActive := true }]

/-- One metadata operation of `PathsService`. -/
inductive SnapshotOp where
  | ensure (freshId createdAt : Str)
  | activate (snapshotId : Str)
  | add (input : SnapshotInput) (setActive : Bool)

/-- Applies one metadata operation; a failing `activateSnapshot` leaves the
metadata file unchanged because the write happens after the check. -/
def applySnapshotOp (s : List SnapshotMeta) : SnapshotOp → List SnapshotMeta
  | SnapshotOp.ensure freshId createdAt => ensureActiveSnapshot s freshId createdAt
  | SnapshotOp.activate sid =>
    match activateSnapshot s sid with
    | Except.ok t => t
    | Except.error _ => s
  | SnapshotOp.add input setActive => addSnapshot s input setActive

/-- Applies a sequence of metadata operations in order. -/
def applySnapshotOps (s : List SnapshotMeta) (ops : List SnapshotOp) : List SnapshotMeta :=
  ops.foldl applySnapshotOp s

/-- Number of snapshots currently marked active. -/
def activeCount (s : List SnapshotMeta) : Nat := s.countP (fun t => t.isActive)

/-- The ids of the snapshot list, in order. -/
def snapshotIds (s : List SnapshotMeta) : List Str := s.map (fun t => t.id)

/-- Checks that an operation applied to the given state only adds an id
that is not already present (the source draws these ids from `nanoid`). -/
def opFreshCheck (s : List SnapshotMeta) : SnapshotOp → Bool
  | SnapshotOp.add input _ => !(decide (input.id ∈ snapshotIds s))
  | _ => true

/-- Checks that every `add` operation in the sequence introduces an id that
is not already present at the point where it runs. -/
def freshOps : List SnapshotMeta → List SnapshotOp → Bool
  | _, [] => true
  | s, op :: rest => opFreshCheck s op && freshOps (applySnapshotOp s op) rest

/-- A concrete active snapshot, used to instantiate the metadata theorems. -/
def snapA : SnapshotMeta :=
  { id := str "a", label := str "A", createdAt := str "t0", sourceZip := none, isActive := true }

/-- A concrete snapshot descriptor, used to instantiate the metadata
theorems. -/
def inputB : SnapshotInput :=
  { id := str "b", label := str "B", createdAt := str "t1", sourceZip := none }

/-- The distinct tag ids of the given purchase that lie in the filter's
tag-id list: the `SELECT purchase_id FROM purchase_tags WHERE tag_id IN
(...) GROUP BY purchase_id` grouping of the tag sub-select, restricted to
one purchase, with `DISTINCT` as deduplication. -/
def matchedTagIds (purchaseTags : List (Str × Str)) (tagIds : List Str)
    (purchaseId : Str) : List Str :=
  ((purchaseTags.filter
      (fun r => decide (r.1 = purchaseId) && decide (r.2 ∈ tagIds))).map Prod.snd).dedup

/-- The tag condition of `buildPurchaseFilterSql`: the purchase id is
selected by the sub-select exactly when its distinct matching tag count
equals the length of the filter's tag-id list (`HAVING count(DISTINCT
tag_id) = tagIds.length`). -/
def tagFilterCondition (purchaseTags : List (Str × Str)) (tagIds : List Str)
    (purchaseId : Str) : Bool :=
  (matchedTagIds purchaseTags tagIds purchaseId).length == tagIds.length

/-- The purchase-tag rows of the three purchases of the specification's
filter example: the first carries tag A, the second tag B, the third both. -/
def examplePurchaseTags : List (Str × Str) :=
  [(str "p1", str "A"), (str "p2", str "B"), (str "p3", str "A"), (str "p3", str "B")]

/-- Lexicographic strict comparison of two embedded strings, matching the
byte-wise `TEXT` comparison the storage engine applies to date strings. -/
def lexLt : Str → Str → Bool
  | [], [] => false
  | [], _ :: _ => true
  | _ :: _, [] => false
  | a :: as, b :: bs => if a < b then true else if b < a then false else lexLt as bs

/-- Lexicographic comparison: less than or equal. -/
def lexLe (a b : Str) : Bool := !(lexLt b a)

/-- ASCII-style lowercasing, as SQL `lower(...)`. -/
def lowerStr (s : Str) : Str := s.map Char.toLower

/-- One row of the `purchases` table. -/
structure PurchaseRow where
  id : Str
  name : Str
  amountCents : Int
  currency : Str
  purchaseDate : Str
  vendor : Option Str
  notes : Option Str
  categoryId : Option Str
  createdAt : Str
  updatedAt : Str

/-- The structured filter accepted by `buildPurchaseFilterSql` and
`listPurchases`.  Absent text fields are `none`; absent id lists are
empty, matching the `length > 0` guards of the source. -/
structure PurchaseFilterInput where
  fromDate : Option Str
  toDate : Option Str
  categoryIds : List Str
  vendor : Option Str
  minAmountCents : Option Int
  maxAmountCents : Option Int
  tagIds : List Str
  query : Option Str
  limit : Nat
  offset : Nat

/-- The conditions pushed by `buildPurchaseFilterSql`, in source order, as
predicates on a purchase row; the purchase-tag relation interprets the tag
sub-select.  A falsy (absent or empty) text field contributes no
condition, as does an empty id list. -/
def purchaseConditions (purchaseTags : List (Str × Str)) (f : PurchaseFilterInput) :
    List (PurchaseRow → Bool) :=
  ((match f.fromDate with
   | some d => if d = [] then [] else [fun r => lexLe d r.purchaseDate]
   | none => []) : List (PurchaseRow → Bool)) ++
  ((match f.toDate with
   | some d => if d = [] then [] else [fun r => lexLe r.purchaseDate d]
   | none => []) : List (PurchaseRow → Bool)) ++
  ((if f.categoryIds.length > 0 then
     [fun r =>
       match r.categoryId with
       | some c => decide (c ∈ f.categoryIds)
       | none => false]
   else []) : List (PurchaseRow → Bool)) ++
  ((match f.vendor with
   | some v => if v = [] then []
     else [fun r => hasSubstring (lowerStr v) (lowerStr (r.vendor.getD []))]
   | none => []) : List (PurchaseRow → Bool)) ++
  ((match f.minAmountCents with
   | some m => [fun r => decide (m ≤ r.amountCents)]
   | none => []) : List (PurchaseRow → Bool)) ++
  ((match f.maxAmountCents with
   | some m => [fun r => decide (r.amountCents ≤ m)]
   | none => []) : List (PurchaseRow → Bool)) ++
  ((if f.tagIds.length > 0 then
     [fun r => tagFilterCondition purchaseTags f.tagIds r.id]
   else []) : List (PurchaseRow → Bool)) ++
  ((match f.query with
   | some q => if q = [] then []
     else [fun r =>
       hasSubstring (lowerStr (trimStr q)) (lowerStr r.name)
         || hasSubstring (lowerStr (trimStr q)) (lowerStr (r.vendor.getD []))
         || hasSubstring (lowerStr (trimStr q)) (lowerStr (r.notes.getD []))]
   | none => []) : List (PurchaseRow → Bool))

/-- The compiled `WHERE` clause as one predicate: the conjunction of all
pushed conditions, unconditional when no condition was pushed. -/
def matchesFilter (purchaseTags : List (Str × Str)) (f : PurchaseFilterInput)
    (r : PurchaseRow) : Bool :=
  (purchaseConditions purchaseTags f).all (fun c => c r)

/-- The `ORDER BY p.purchase_date DESC, p.created_at DESC` comparison of
the page query of `listPurchases`. -/
def purchaseOrder (a b : PurchaseRow) : Bool :=
  if a.purchaseDate = b.purchaseDate then lexLe b.createdAt a.createdAt
  else lexLe b.purchaseDate a.purchaseDate

/-- `DatabaseService.listPurchases`: one compiled predicate is evaluated by
both the count query and the page query; the page orders the matching
rows and applies `LIMIT`/`OFFSET`. -/
def listPurchases (purchases : List PurchaseRow) (purchaseTags : List (Str × Str))
    (f : PurchaseFilterInput) : List PurchaseRow × Nat :=
  let total := (purchases.filter (matchesFilter purchaseTags f)).length
  let page :=
    (((purchases.filter (matchesFilter purchaseTags f)).mergeSort purchaseOrder).drop
        f.offset).take f.limit
  (page, total)

/-- A concrete purchase row, used to instantiate the list theorems. -/
def examplePurchase : PurchaseRow :=
  { id := str "p1", name := str "Coffee", amountCents := 450, currency := str "USD",
    purchaseDate := str "2024-05-01", vendor := none, notes := none, categoryId := none,
    createdAt := str "2024-05-01T10:00:00Z", updatedAt := str "2024-05-01T10:00:00Z" }

/-- The filter with every field absent, which compiles to the
unconditional predicate. -/
def emptyFilter : PurchaseFilterInput :=
  { fromDate := none, toDate := none, categoryIds := [], vendor := none,
    minAmountCents := none, maxAmountCents := none, tagIds := [], query := none,
    limit := 100, offset := 0 }

/-- The `lastFilters` object of the stored settings.  The `limit` and
`offset` fields appear in the source defaults; the date bounds stand for
the rest of the last-used filter state. -/
structure LastFilters where
  fromDate : Option Str
  toDate : Option Str
  limit : Int
  offset : Int
deriving DecidableEq

/-- The stored settings object, as produced by `defaultSettings` in the
settings library. -/
structure AppSettings where
  theme : Str
  baseCurrency : Str
  overallMonthlyBudgetCents : Int
  performanceMode : Str
  previewImages : Bool
  lastFilters : LastFilters
deriving DecidableEq

/-- A partial update of the `lastFilters` object: present fields override,
absent fields keep the previous value, as the object spread does. -/
structure LastFiltersPatch where
  fromDate : Option (Option Str)
  toDate : Option (Option Str)
  limit : Option Int
  offset : Option Int

/-- A partial update of the settings object, the argument of
`updateSettings`. -/
structure AppSettingsPatch where
  theme : Option Str
  baseCurrency : Option Str
  overallMonthlyBudgetCents : Option Int
  performanceMode : Option Str
  previewImages : Option Bool
  lastFilters : Option LastFiltersPatch

/-- The update input with no field specified. -/
def emptyPatch : AppSettingsPatch :=
  { theme := none, baseCurrency := none, overallMonthlyBudgetCents := none,
    performanceMode := none, previewImages := none, lastFilters := none }

/-- `defaultSettings` from the settings library. -/
def defaultSettings : AppSettings :=
  { theme := str "dark", baseCurrency := str "USD", overallMonthlyBudgetCents := 0,
    performanceMode := str "off", previewImages := true,
    lastFilters := { fromDate := none, toDate := none, limit := 100, offset := 0 } }

/-- The state of the single keyed settings row: absent, holding JSON that
fails to deserialize, or holding a well-formed settings object. -/
inductive StoredSettings where
  | missing
  | corrupt
  | valid (s : AppSettings)

/-- `DatabaseService.getSettings`: defaults when the row is absent or its
JSON fails to parse, and otherwise the stored object with the `theme`
field overridden to `dark`. -/
def getSettings : StoredSettings → AppSettings
  | StoredSettings.missing => defaultSettings
  | StoredSettings.corrupt => defaultSettings
  | StoredSettings.valid s => { s with theme := str "dark" }

/-- The nested spread `{ ...current.lastFilters, ...input.lastFilters }`
of `updateSettings`. -/
def mergeLastFilters (current : LastFilters) : Option LastFiltersPatch → LastFilters
  | none => current
  | some p =>
    { fromDate := p.fromDate.getD current.fromDate,
      toDate := p.toDate.getD current.toDate,
      limit := p.limit.getD current.limit,
      offset := p.offset.getD current.offset }

/-- `DatabaseService.updateSettings`: spreads the input over the current
settings (read through `getSettings`), then forces `theme := dark` and the
nested `lastFilters` merge, and returns the result (which is also what is
serialized into the settings row). -/
def updateSettings (stored : StoredSettings) (input : AppSettingsPatch) : AppSettings :=
  let current := getSettings stored
  { theme := str "dark",
    baseCurrency := input.baseCurrency.getD current.baseCurrency,
    overallMonthlyBudgetCents :=
      input.overallMonthlyBudgetCents.getD current.overallMonthlyBudgetCents,
    performanceMode := input.performanceMode.getD current.performanceMode,
    previewImages := input.previewImages.getD current.previewImages,
    lastFilters := mergeLastFilters current.lastFilters input.lastFilters }

/-- The settings row after `updateSettings` persists the merged object. -/
def updateSettingsStored (stored : StoredSettings) (input : AppSettingsPatch) :
    StoredSettings :=
  StoredSettings.valid (updateSettings stored input)

/-- A stored settings object whose theme is not `dark`, used to evaluate
the settings theorems on a concrete input. -/
def lightStored : AppSettings := { defaultSettings with theme := str "light" }

/-- Rounds a rational to two decimal places, as `Number(x.toFixed(2))`
does (round to nearest, ties towards positive infinity). -/
def round2 (q : ℚ) : ℚ := ((round (q * 100) : ℤ) : ℚ) / 100

/-- The month-over-month delta of `DatabaseService.getDashboardSummary`:
the special cases for a zero previous month, the percentage formula
otherwise, and the final rounding to two decimals applied to the returned
value. -/
def monthOverMonthDeltaPercent (current previous : Int) : ℚ :=
  round2 (if previous = 0 then (if 0 < current then 100 else 0)
          else (((current : ℚ) - (previous : ℚ)) / (previous : ℚ)) * 100)

/-- `calculateBudgetVariance` from the settings library: the exact integer
variance and the utilization percentage, which is `0` for a zero budget
and otherwise rounded to two decimals by `toFixed(2)`. -/
def calculateBudgetVariance (budgetCents actualCents : Int) : Int × ℚ :=
  (budgetCents - actualCents,
   if budgetCents = 0 then 0
   else round2 (((actualCents : ℚ) / (budgetCents : ℚ)) * 100))

/-- Claim C1: the archive entry `media/../../etc/passwd` is not flagged by
`isUnsafeRelativePath` (normalization silently drops the escaping `..`
segments before the dead `../` checks run), `validateZip` records no
path error for an archive containing it, and `importZip` selects it for
writing at a destination that escapes the media root. -/
theorem pathTraversalEntryAccepted :
    isUnsafeRelativePath (str "media/../../etc/passwd") = false
    ∧ zipEntriesPathError
        [str "manifest.json", str "checksums.json", str "media/../../etc/passwd"] = false
    ∧ eligibleWrites [(str "media/../../etc/passwd", [1])] (str "BookkeepingApp/data/ds1/media")
        = [(str "BookkeepingApp/data/ds1/media/../../etc/passwd", [1])] := by
  refine ⟨by decide, by decide, by decide⟩

/-- Counterexample to claim C2: on a concrete export the checksum map does
contain an entry for `manifest.json`, contrary to the claim that it does
not. -/
theorem manifestChecksumPresent :
    (str "manifest.json", str "h") ∈ (exportZip constHash emptyExportSource).2 := by
  decide

/-- Claim C2 as amended: the checksum map produced by `exportZip` covers
each data, CSV and media file written into the archive and additionally
contains an entry for `manifest.json` itself; `checksums.json` is the only
archive entry without a checksum entry. -/
theorem exportChecksumKeysCoverage (hash : List Nat → Str) (source : ExportSource) :
    (exportZip hash source).2.map Prod.fst
      = str "manifest.json"
        :: (EXPORT_TABLES.map (fun t => str "json/" ++ t ++ str ".json")
            ++ EXPORT_TABLES.map (fun t => str "csv/" ++ t ++ str ".csv")
            ++ source.mediaRelativePaths.map (fun rel => str "media/" ++ backslashesToSlashes rel))
    ∧ (exportZip hash source).1.map Prod.fst
      = (exportZip hash source).2.map Prod.fst ++ [str "checksums.json"] := by
  constructor <;> simp [exportZip, List.map_map, Function.comp_def]

/-- Counterexample to claim C3: with a first media write that fails, the
error escapes `importZip` (it is not a warning), the remaining media entry
is never written, and the final persist is skipped. -/
theorem mediaWriteFailureAborts :
    importZipMedia writeFailOnA
        [(str "media/a.png", [1]), (str "media/b.png", [2])] (str "r")
      = { writtenMedia := [], persisted := false, errorMsg := some (str "disk full") } := by
  decide

/-- Unfolds `importMedia` as the write runner applied to the eligible
write list. -/
theorem importMedia_eq_runWrites (writeFile : Str → List Nat → Except Str Unit)
    (entries : List (Str × List Nat)) (root : Str) :
    importMedia writeFile entries root = runWrites writeFile (eligibleWrites entries root) := by
  induction entries with
  | nil => rfl
  | cons e rest ih =>
    cases h : mediaRelOf e.1 with
    | none => simpa [importMedia, eligibleWrites, h] using ih
    | some rel =>
      cases hw : writeFile (joinPath [root, rel]) e.2 with
      | error msg => simp [importMedia, eligibleWrites, h, runWrites, hw]
      | ok u => simp [importMedia, eligibleWrites, h, runWrites, hw, ih]

/-- Characterizes the write runner: success means every write ran and
succeeded; failure means the writes form a successful prefix followed by
the failing write, and nothing after it ran. -/
theorem runWrites_spec (writeFile : Str → List Nat → Except Str Unit)
    (l : List (Str × List Nat)) :
    ((runWrites writeFile l).2 = none →
        (runWrites writeFile l).1 = l.map Prod.fst ∧ ∀ p ∈ l, writeFile p.1 p.2 = .ok ())
    ∧ ∀ e, (runWrites writeFile l).2 = some e →
        ∃ pre x post, l = pre ++ x :: post
          ∧ (∀ p ∈ pre, writeFile p.1 p.2 = .ok ())
          ∧ writeFile x.1 x.2 = .error e
          ∧ (runWrites writeFile l).1 = pre.map Prod.fst := by
  induction l with
  | nil =>
    refine ⟨fun _ => ⟨rfl, by simp⟩, fun e he => ?_⟩
    simp [runWrites] at he
  | cons w rest ih =>
    cases hw : writeFile w.1 w.2 with
    | error msg =>
      refine ⟨fun hnone => ?_, fun e he => ?_⟩
      · simp [runWrites, hw] at hnone
      · refine ⟨[], w, rest, by simp, by simp, ?_, by simp [runWrites, hw]⟩
        simp [runWrites, hw] at he
        simpa [he] using hw
    | ok u =>
      refine ⟨fun hnone => ?_, fun e he => ?_⟩
      · simp only [runWrites, hw] at hnone ⊢
        obtain ⟨h1, h2⟩ := ih.1 hnone
        refine ⟨by simp [h1], ?_⟩
        intro p hp
        rcases List.mem_cons.mp hp with h | h
        · cases u; simpa [h] using hw
        · exact h2 p h
      · simp only [runWrites, hw] at he ⊢
        obtain ⟨pre, x, post, hplit, hpre, hx, hwritten⟩ := ih.2 e he
        refine ⟨w :: pre, x, post, by simp [hplit], ?_, hx, by simp [hwritten]⟩
        intro p hp
        rcases List.mem_cons.mp hp with h | h
        · cases u; simpa [h] using hw
        · exact hpre p h

/-- Claim C3 as amended: a failure while writing a single media file is not
surfaced as a partial-success warning; it propagates out of `importZip` as
an error, the media entries after the failing one are never written, and
the final persist is skipped.  When every write succeeds, all eligible
media entries are written and the persist runs. -/
theorem importMediaFailurePropagation (writeFile : Str → List Nat → Except Str Unit)
    (entries : List (Str × List Nat)) (root : Str) :
    ((importZipMedia writeFile entries root).errorMsg = none →
        (importZipMedia writeFile entries root).persisted = true
          ∧ (importZipMedia writeFile entries root).writtenMedia
              = (eligibleWrites entries root).map Prod.fst
          ∧ ∀ p ∈ eligibleWrites entries root, writeFile p.1 p.2 = .ok ())
    ∧ ∀ e, (importZipMedia writeFile entries root).errorMsg = some e →
        (importZipMedia writeFile entries root).persisted = false
          ∧ ∃ pre x post, eligibleWrites entries root = pre ++ x :: post
              ∧ (∀ p ∈ pre, writeFile p.1 p.2 = .ok ())
              ∧ writeFile x.1 x.2 = .error e
              ∧ (importZipMedia writeFile entries root).writtenMedia = pre.map Prod.fst := by
  have hrw := importMedia_eq_runWrites writeFile entries root
  have hspec := runWrites_spec writeFile (eligibleWrites entries root)
  cases h2 : (runWrites writeFile (eligibleWrites entries root)).2 with
  | none =>
    obtain ⟨h1, hall⟩ := hspec.1 h2
    have hout : importZipMedia writeFile entries root
        = { writtenMedia := (eligibleWrites entries root).map Prod.fst,
            persisted := true, errorMsg := none } := by
      simp [importZipMedia, hrw, h2, h1]
    refine ⟨fun _ => ⟨?_, ?_, hall⟩, fun e he => ?_⟩
    · rw [hout]
    · rw [hout]
    · rw [hout] at he; simp at he
  | some e2 =>
    obtain ⟨pre, x, post, hsplit, hpre, hx, hwritten⟩ := hspec.2 e2 h2
    have hout : importZipMedia writeFile entries root
        = { writtenMedia := pre.map Prod.fst, persisted := false, errorMsg := some e2 } := by
      simp [importZipMedia, hrw, h2, hwritten]
    refine ⟨fun hnone => ?_, fun e he => ?_⟩
    · rw [hout] at hnone; simp at hnone
    · rw [hout] at he
      have hee : e2 = e := by simpa using he
      subst hee
      exact ⟨by rw [hout], pre, x, post, hsplit, hpre, hx, by rw [hout]⟩

/-- Witness for the amended claim C3, instantiated at a one-entry archive
whose write succeeds. -/
theorem importMediaFailurePropagationWitness :
    (importZipMedia writeAlwaysOk [(str "media/a.png", [1])] (str "r")).persisted = true
    ∧ (importZipMedia writeAlwaysOk [(str "media/a.png", [1])] (str "r")).writtenMedia
        = (eligibleWrites [(str "media/a.png", [1])] (str "r")).map Prod.fst := by
  have h := importMediaFailurePropagation writeAlwaysOk [(str "media/a.png", [1])] (str "r")
  exact ⟨(h.1 rfl).1, (h.1 rfl).2.1⟩

/-- Helper: in a duplicate-free list, a present element is counted exactly
once. -/
theorem countP_decide_eq_one {α : Type} [DecidableEq α]
    (l : List α) (a : α) (hnd : l.Nodup) (hmem : a ∈ l) :
    l.countP (fun x => decide (x = a)) = 1 := by
  induction l with
  | nil => cases hmem
  | cons b rest ih =>
    have hb : b ∉ rest := (List.nodup_cons.mp hnd).1
    rcases List.mem_cons.mp hmem with hab | hmem2
    · subst hab
      have hz : rest.countP (fun x => decide (x = a)) = 0 := by
        refine List.countP_eq_zero.mpr ?_
        intro x hx
        simp only [decide_eq_true_eq]
        intro hxa
        exact hb (hxa ▸ hx)
      simp [List.countP_cons, hz]
    · have hba : ¬ (b = a) := fun h => hb (h ▸ hmem2)
      have hr := ih (List.nodup_cons.mp hnd).2 hmem2
      simp [List.countP_cons, hr, hba]

/-- Helper: when the requested id is present, `activateSnapshot` succeeds,
preserves the id list, and sets the active flag exactly on the matching
id. -/
theorem activateSnapshot_found (s : List SnapshotMeta) (sid : Str)
    (hmem : sid ∈ snapshotIds s) :
    ∃ t, activateSnapshot s sid = Except.ok t
      ∧ snapshotIds t = snapshotIds s
      ∧ (∀ x ∈ t, x.isActive = decide (x.id = sid))
      ∧ activeCount t = s.countP (fun x => decide (x.id = sid)) := by
  have hany : s.any (fun x => decide (x.id = sid)) = true := by
    rcases List.mem_map.mp hmem with ⟨x, hx, hxi⟩
    exact List.any_eq_true.mpr ⟨x, hx, by simp [hxi]⟩
  refine ⟨s.map (fun x =>
      if x.id = sid then { x with isActive := true } else { x with isActive := false }),
    by simp [activateSnapshot, hany], ?_, ?_, ?_⟩
  · simp only [snapshotIds, List.map_map]
    refine List.map_congr_left ?_
    intro x _
    by_cases h : x.id = sid <;> simp [h]
  · intro x hx
    rcases List.mem_map.mp hx with ⟨y, hy, hyx⟩
    subst hyx
    by_cases h : y.id = sid <;> simp [h]
  · simp only [activeCount, List.countP_map]
    refine List.countP_congr ?_
    intro x _
    by_cases h : x.id = sid <;> simp [h, Function.comp]

/-- Helper: each metadata operation preserves distinct ids and the
exactly-one-active invariant, provided an added id is fresh. -/
theorem applySnapshotOp_invariant (s : List SnapshotMeta) (op : SnapshotOp)
    (hnd : (snapshotIds s).Nodup) (hone : activeCount s = 1)
    (hf : opFreshCheck s op = true) :
    (snapshotIds (applySnapshotOp s op)).Nodup
      ∧ activeCount (applySnapshotOp s op) = 1 := by
  cases op with
  | ensure freshId createdAt =>
    have hpos : 0 < s.countP (fun t => t.isActive) := by
      have : s.countP (fun t => t.isActive) = 1 := hone
      omega
    obtain ⟨x, hx, hxa⟩ := List.countP_pos_iff.mp hpos
    cases hfd : s.find? (fun t => t.isActive) with
    | none => exact absurd hxa (by simpa using List.find?_eq_none.mp hfd x hx)
    | some a => simpa [applySnapshotOp, ensureActiveSnapshot, hfd] using ⟨hnd, hone⟩
  | activate sid =>
    by_cases hmem : sid ∈ snapshotIds s
    · obtain ⟨t, hok, hids, _, hcnt⟩ := activateSnapshot_found s sid hmem
      have hone2 : activeCount t = 1 := by
        rw [hcnt]
        have hmapped : s.countP (fun x => decide (x.id = sid))
            = (snapshotIds s).countP (fun i => decide (i = sid)) := by
          simp [snapshotIds, List.countP_map, Function.comp_def]
        rw [hmapped]
        exact countP_decide_eq_one _ sid hnd hmem
      simp only [applySnapshotOp, hok]
      exact ⟨hids ▸ hnd, hone2⟩
    · have hany : s.any (fun x => decide (x.id = sid)) = false := by
        rcases h : s.any (fun x => decide (x.id = sid)) with _ | _
        · rfl
        · obtain ⟨x, hx, hxi⟩ := List.any_eq_true.mp h
          exact absurd (List.mem_map.mpr ⟨x, hx, by simpa using hxi⟩) hmem
      simpa [applySnapshotOp, activateSnapshot, hany] using ⟨hnd, hone⟩
  | add input setActive =>
    have hfresh : input.id ∉ snapshotIds s := by simpa [opFreshCheck] using hf
    have hids : snapshotIds (addSnapshot s input setActive)
        = snapshotIds s ++ [input.id] := by
      simp [addSnapshot, snapshotIds, List.map_map, Function.comp_def]
    have happ : applySnapshotOp s (SnapshotOp.add input setActive)
        = addSnapshot s input setActive := rfl
    rw [happ]
    constructor
    · rw [hids]
      refine List.Nodup.append hnd (List.nodup_singleton _) ?_
      intro x hx hx1
      have hxe : x = input.id := by simpa using hx1
      exact hfresh (hxe ▸ hx)
    · cases setActive with
      | true =>
        have h1 : (s.map (fun item =>
            ({ item with isActive := if true = true then false else item.isActive }
              : SnapshotMeta))).countP (fun t => t.isActive) = 0 := by
          simp [List.countP_map, Function.comp_def]
        simp [applySnapshotOp, addSnapshot, activeCount, List.countP_append, h1,
          List.countP_cons]
      | false =>
        have h1 : (s.map (fun item =>
            ({ item with isActive := if false = true then false else item.isActive }
              : SnapshotMeta))).countP (fun t => t.isActive)
            = s.countP (fun t => t.isActive) := by
          simp [List.countP_map, Function.comp_def]
        have hone2 : s.countP (fun t => t.isActive) = 1 := hone
        simp [applySnapshotOp, addSnapshot, activeCount, List.countP_append, h1,
          List.countP_cons, hone2]

/-- Helper: the exactly-one-active invariant with distinct ids is preserved
by every operation sequence whose added ids are fresh. -/
theorem applySnapshotOps_invariant :
    ∀ (ops : List SnapshotOp) (s : List SnapshotMeta),
      (snapshotIds s).Nodup → activeCount s = 1 → freshOps s ops = true →
      (snapshotIds (applySnapshotOps s ops)).Nodup
        ∧ activeCount (applySnapshotOps s ops) = 1 := by
  intro ops
  induction ops with
  | nil => intro s h1 h2 _; exact ⟨h1, h2⟩
  | cons op rest ih =>
    intro s h1 h2 hf
    have hf2 : opFreshCheck s op = true ∧ freshOps (applySnapshotOp s op) rest = true := by
      simpa [freshOps, Bool.and_eq_true] using hf
    obtain ⟨hstep1, hstep2⟩ := applySnapshotOp_invariant s op h1 h2 hf2.1
    have hfold : applySnapshotOps s (op :: rest)
        = applySnapshotOps (applySnapshotOp s op) rest := rfl
    rw [hfold]
    exact ih _ hstep1 hstep2 hf2.2

/-- Counterexample to claim C4: starting from empty metadata, the single
operation `addSnapshot(descriptor, makeActive := false)` leaves a
non-empty snapshot list in which no snapshot is active. -/
theorem addInactiveBreaksInvariant :
    (applySnapshotOps [] [SnapshotOp.add inputB false]).length = 1
    ∧ activeCount (applySnapshotOps [] [SnapshotOp.add inputB false]) = 0 := by
  exact ⟨by decide, by decide⟩

/-- Claim C4 as amended: from any metadata state with distinct ids and
exactly one active snapshot (the state `ensureActiveSnapshot` establishes),
every sequence of `ensureActiveSnapshot`, `activateSnapshot` and
`addSnapshot` operations whose added ids are fresh keeps exactly one
snapshot active; `activateSnapshot(id)` fails with the unknown-snapshot
error and leaves the metadata unchanged when `id` is absent, and otherwise
succeeds with exactly the snapshot carrying `id` active and all others
inactive.  (Unrestricted sequences do not keep the invariant: adding a
descriptor with `makeActive := false` to a state with no active snapshot
leaves a non-empty list with none active.) -/
theorem exactOneActiveSnapshot (s : List SnapshotMeta) (ops : List SnapshotOp) (sid : Str)
    (hnd : (snapshotIds s).Nodup) (hone : activeCount s = 1)
    (hf : freshOps s ops = true) :
    activeCount (applySnapshotOps s ops) = 1
    ∧ (sid ∉ snapshotIds s →
        activateSnapshot s sid = Except.error (str "Snapshot does not exist.")
          ∧ applySnapshotOp s (SnapshotOp.activate sid) = s)
    ∧ (sid ∈ snapshotIds s →
        ∃ t, activateSnapshot s sid = Except.ok t
          ∧ (∀ x ∈ t, x.isActive = decide (x.id = sid))
          ∧ activeCount t = 1) := by
  refine ⟨(applySnapshotOps_invariant ops s hnd hone hf).2, ?_, ?_⟩
  · intro hmem
    have hany : s.any (fun x => decide (x.id = sid)) = false := by
      rcases h : s.any (fun x => decide (x.id = sid)) with _ | _
      · rfl
      · obtain ⟨x, hx, hxi⟩ := List.any_eq_true.mp h
        exact absurd (List.mem_map.mpr ⟨x, hx, by simpa using hxi⟩) hmem
    have herr : activateSnapshot s sid = Except.error (str "Snapshot does not exist.") := by
      simp [activateSnapshot, hany]
    exact ⟨herr, by simp [applySnapshotOp, herr]⟩
  · intro hmem
    obtain ⟨t, hok, _, hflag, hcnt⟩ := activateSnapshot_found s sid hmem
    refine ⟨t, hok, hflag, ?_⟩
    rw [hcnt]
    have hmapped : s.countP (fun x => decide (x.id = sid))
        = (snapshotIds s).countP (fun i => decide (i = sid)) := by
      simp [snapshotIds, List.countP_map, Function.comp_def]
    rw [hmapped]
    exact countP_decide_eq_one _ sid hnd hmem

/-- Witness for the amended claim C4: from one active snapshot, adding an
inactive snapshot and then activating it leaves exactly one snapshot
active. -/
theorem exactOneActiveSnapshotWitness :
    activeCount (applySnapshotOps [snapA]
      [SnapshotOp.add inputB false, SnapshotOp.activate (str "b")]) = 1 := by
  exact (exactOneActiveSnapshot [snapA]
    [SnapshotOp.add inputB false, SnapshotOp.activate (str "b")] (str "b")
    (by decide) (by decide) (by decide)).1

/-- Helper: membership in the matched-tag list means the purchase carries
the tag and the tag is in the filter list. -/
theorem mem_matchedTagIds (pt : List (Str × Str)) (tagIds : List Str) (pid : Str)
    (t : Str) :
    t ∈ matchedTagIds pt tagIds pid ↔ (pid, t) ∈ pt ∧ t ∈ tagIds := by
  simp only [matchedTagIds, List.mem_dedup, List.mem_map, List.mem_filter,
    Bool.and_eq_true, decide_eq_true_eq]
  constructor
  · rintro ⟨x, ⟨hxpt, hx1, hx2⟩, hxt⟩
    subst hxt
    have hx : x = (pid, x.2) := by
      cases x with
      | mk a b => simpa using hx1
    exact ⟨hx ▸ hxpt, hx2⟩
  · rintro ⟨hmem2, htag⟩
    exact ⟨(pid, t), ⟨hmem2, rfl, htag⟩, rfl⟩

/-- Claim C5: for a non-empty duplicate-free tag-id filter, the tag
condition compiled by `buildPurchaseFilterSql` holds for a purchase
exactly when the purchase carries every tag id of the filter
(set-intersection semantics). -/
theorem tagFilterRequiresAllTags (pt : List (Str × Str)) (tagIds : List Str) (pid : Str)
    (_hne : tagIds ≠ []) (hnd : tagIds.Nodup) :
    tagFilterCondition pt tagIds pid = true ↔ ∀ t ∈ tagIds, (pid, t) ∈ pt := by
  have hndl : (matchedTagIds pt tagIds pid).Nodup := List.nodup_dedup _
  have hsub : matchedTagIds pt tagIds pid ⊆ tagIds :=
    fun t ht => ((mem_matchedTagIds pt tagIds pid t).mp ht).2
  constructor
  · intro h
    have hlen : (matchedTagIds pt tagIds pid).length = tagIds.length := by
      simpa [tagFilterCondition] using h
    have h1 : (matchedTagIds pt tagIds pid).toFinset ⊆ tagIds.toFinset := by
      intro x hx
      exact List.mem_toFinset.mpr (hsub (List.mem_toFinset.mp hx))
    have hcard : tagIds.toFinset.card ≤ (matchedTagIds pt tagIds pid).toFinset.card := by
      rw [List.toFinset_card_of_nodup hndl, List.toFinset_card_of_nodup hnd, hlen]
    have heq := Finset.eq_of_subset_of_card_le h1 hcard
    intro t ht
    have hin : t ∈ matchedTagIds pt tagIds pid := by
      have hm : t ∈ tagIds.toFinset := List.mem_toFinset.mpr ht
      rw [← heq] at hm
      exact List.mem_toFinset.mp hm
    exact ((mem_matchedTagIds pt tagIds pid t).mp hin).1
  · intro h
    have hsup : tagIds ⊆ matchedTagIds pt tagIds pid :=
      fun t ht => (mem_matchedTagIds pt tagIds pid t).mpr ⟨h t ht, ht⟩
    have hfin : (matchedTagIds pt tagIds pid).toFinset = tagIds.toFinset := by
      apply Finset.Subset.antisymm
      · intro x hx
        exact List.mem_toFinset.mpr (hsub (List.mem_toFinset.mp hx))
      · intro x hx
        exact List.mem_toFinset.mpr (hsup (List.mem_toFinset.mp hx))
    have hlen : (matchedTagIds pt tagIds pid).length = tagIds.length := by
      rw [← List.toFinset_card_of_nodup hndl, ← List.toFinset_card_of_nodup hnd, hfin]
    simpa [tagFilterCondition] using hlen

/-- Witness for claim C5, on the specification's example: with purchases
tagged A, B, and both, the tag filter A,B matches only the third purchase
and the tag filter A matches the first and third. -/
theorem tagFilterRequiresAllTagsWitness :
    tagFilterCondition examplePurchaseTags [str "A", str "B"] (str "p3") = true
    ∧ tagFilterCondition examplePurchaseTags [str "A", str "B"] (str "p1") = false
    ∧ tagFilterCondition examplePurchaseTags [str "A", str "B"] (str "p2") = false
    ∧ tagFilterCondition examplePurchaseTags [str "A"] (str "p1") = true
    ∧ tagFilterCondition examplePurchaseTags [str "A"] (str "p3") = true
    ∧ tagFilterCondition examplePurchaseTags [str "A"] (str "p2") = false := by
  refine ⟨?_, by decide, by decide, ?_, ?_, by decide⟩
  · exact (tagFilterRequiresAllTags examplePurchaseTags [str "A", str "B"] (str "p3")
      (by decide) (by decide)).mpr (by decide)
  · exact (tagFilterRequiresAllTags examplePurchaseTags [str "A"] (str "p1")
      (by decide) (by decide)).mpr (by decide)
  · exact (tagFilterRequiresAllTags examplePurchaseTags [str "A"] (str "p3")
      (by decide) (by decide)).mpr (by decide)

/-- Claim C9: `listPurchases` evaluates its count and its page against the
same compiled predicate: the total is the number of matching purchases and
is independent of limit and offset, every returned item matches, and the
returned items are the limit/offset page of the ordered matching
purchases. -/
theorem listPurchasesConsistent (purchases : List PurchaseRow)
    (purchaseTags : List (Str × Str)) (f : PurchaseFilterInput) :
    (listPurchases purchases purchaseTags f).2
        = (purchases.filter (matchesFilter purchaseTags f)).length
    ∧ (∀ l o, (listPurchases purchases purchaseTags
        { f with limit := l, offset := o }).2 = (listPurchases purchases purchaseTags f).2)
    ∧ (∀ r ∈ (listPurchases purchases purchaseTags f).1,
        matchesFilter purchaseTags f r = true)
    ∧ (listPurchases purchases purchaseTags f).1
        = (((purchases.filter (matchesFilter purchaseTags f)).mergeSort
            purchaseOrder).drop f.offset).take f.limit := by
  refine ⟨rfl, ?_, ?_, rfl⟩
  · intro l o
    have hsame : matchesFilter purchaseTags { f with limit := l, offset := o }
        = matchesFilter purchaseTags f := rfl
    simp [listPurchases, hsame]
  · intro r hr
    have h1 : r ∈ (purchases.filter (matchesFilter purchaseTags f)).mergeSort
        purchaseOrder :=
      List.drop_subset _ _ (List.take_subset _ _ hr)
    have h2 : r ∈ purchases.filter (matchesFilter purchaseTags f) :=
      (List.mergeSort_perm (purchases.filter (matchesFilter purchaseTags f))
        purchaseOrder).mem_iff.mp h1
    exact List.of_mem_filter h2

/-- Witness for claim C9, at a one-purchase store and the empty filter:
the total is the matching count and is unchanged by limit and offset, and
the returned purchase satisfies the predicate. -/
theorem listPurchasesConsistentWitness :
    (listPurchases [examplePurchase] [] { emptyFilter with limit := 7, offset := 3 }).2
        = (listPurchases [examplePurchase] [] emptyFilter).2
    ∧ (listPurchases [examplePurchase] [] emptyFilter).2
        = ([examplePurchase].filter (matchesFilter [] emptyFilter)).length
    ∧ matchesFilter [] emptyFilter examplePurchase = true := by
  have h := listPurchasesConsistent [examplePurchase] [] emptyFilter
  refine ⟨h.2.1 7 3, h.1, h.2.2.1 examplePurchase ?_⟩
  have hm : matchesFilter [] emptyFilter examplePurchase = true := rfl
  have hl : emptyFilter.limit = 100 := rfl
  have ho : emptyFilter.offset = 0 := rfl
  simp [listPurchases, hm, List.mergeSort_singleton, hl, ho]

/-- Counterexample to claim C6: with a stored theme of `light` and an
update input that does not mention the theme, `updateSettings` returns
`dark` instead of retaining the stored value. -/
theorem themeNotRetainedOnUpdate :
    lightStored.theme = str "light"
    ∧ emptyPatch.theme = none
    ∧ (updateSettings (StoredSettings.valid lightStored) emptyPatch).theme = str "dark" := by
  exact ⟨rfl, rfl, rfl⟩

/-- Claim C6 as amended: `updateSettings` merges the input onto the
previously stored settings so that every field other than `theme` that is
not specified in the input retains its prior value (nested `lastFilters`
fields merge field by field, and an absent `lastFilters` input keeps the
whole prior object); `theme` is always forced to `dark`; the merged object
is what is persisted and returned. -/
theorem updateSettingsMerge (stored : StoredSettings) (input : AppSettingsPatch) :
    (updateSettings stored input).theme = str "dark"
    ∧ (updateSettings stored input).baseCurrency
        = input.baseCurrency.getD (getSettings stored).baseCurrency
    ∧ (updateSettings stored input).overallMonthlyBudgetCents
        = input.overallMonthlyBudgetCents.getD (getSettings stored).overallMonthlyBudgetCents
    ∧ (updateSettings stored input).performanceMode
        = input.performanceMode.getD (getSettings stored).performanceMode
    ∧ (updateSettings stored input).previewImages
        = input.previewImages.getD (getSettings stored).previewImages
    ∧ (updateSettings stored input).lastFilters
        = mergeLastFilters (getSettings stored).lastFilters input.lastFilters
    ∧ mergeLastFilters (getSettings stored).lastFilters none
        = (getSettings stored).lastFilters
    ∧ updateSettingsStored stored input = StoredSettings.valid (updateSettings stored input) := by
  exact ⟨rfl, rfl, rfl, rfl, rfl, rfl, rfl, rfl⟩

/-- Claim C10: whatever the stored settings row holds (absent, corrupt, or
any theme) and whatever the update input requests, the settings object
returned by `getSettings` and by `updateSettings` has theme `dark`. -/
theorem themeAlwaysDark (stored : StoredSettings) (input : AppSettingsPatch) :
    (getSettings stored).theme = str "dark"
    ∧ (updateSettings stored input).theme = str "dark" := by
  cases stored <;> exact ⟨rfl, rfl⟩

/-- Counterexample to claim C7: for a current-month spend of 1 cent and a
previous-month spend of 3 cents the returned delta is the two-decimal
rounding `-66.67`, not the exact value `(current - previous) / previous *
100 = -200/3`. -/
theorem dashboardDeltaRounded :
    monthOverMonthDeltaPercent 1 3 ≠ (((1 : ℚ) - 3) / 3) * 100 := by
  norm_num [monthOverMonthDeltaPercent, round2, round_eq]

/-- Claim C7 as amended: `getDashboardSummary` returns a delta of `0` when
previous and current spend are both zero (more precisely when the current
spend is not positive), `100` when the previous spend is zero and the
current spend positive, and otherwise `(current - previous) / previous *
100` rounded to two decimal places by `toFixed(2)`. -/
theorem dashboardDeltaFormula (current previous : Int) :
    (previous = 0 → current ≤ 0 → monthOverMonthDeltaPercent current previous = 0)
    ∧ (previous = 0 → 0 < current → monthOverMonthDeltaPercent current previous = 100)
    ∧ (previous ≠ 0 → monthOverMonthDeltaPercent current previous
        = round2 ((((current : ℚ) - (previous : ℚ)) / (previous : ℚ)) * 100)) := by
  refine ⟨?_, ?_, ?_⟩
  · intro h0 hc
    simp only [monthOverMonthDeltaPercent, h0, if_true, not_lt.mpr hc, if_false,
      if_neg (not_lt.mpr hc)]
    norm_num [round2]
  · intro h0 hc
    simp only [monthOverMonthDeltaPercent, h0, if_true, if_pos hc]
    norm_num [round2, round_eq]
  · intro h
    simp [monthOverMonthDeltaPercent, h]

/-- Witness for the amended claim C7, at the specification's examples: a
previous spend of zero gives a delta of 100 percent for a positive current
spend and 0 percent for a zero current spend. -/
theorem dashboardDeltaFormulaWitness :
    monthOverMonthDeltaPercent 500 0 = 100 ∧ monthOverMonthDeltaPercent 0 0 = 0 := by
  exact ⟨(dashboardDeltaFormula 500 0).2.1 rfl (by norm_num),
         (dashboardDeltaFormula 0 0).1 rfl le_rfl⟩

/-- Counterexample to claim C8: for a budget of 3 cents and an actual
spend of 1 cent the returned utilization is the two-decimal rounding
`33.33`, not the exact value `actual / budget * 100 = 100/3`. -/
theorem utilizationRounded :
    (calculateBudgetVariance 3 1).2 ≠ ((1 : ℚ) / 3) * 100 := by
  norm_num [calculateBudgetVariance, round2, round_eq]

/-- Claim C8 as amended: `calculateBudgetVariance` returns the exact
integer variance `budgetCents - actualCents`, a utilization of `0` when
the budget is zero, and otherwise `actualCents / budgetCents * 100`
rounded to two decimal places by `toFixed(2)`; at budget 10000 and actual
12500 this gives variance -2500 and utilization 125. -/
theorem budgetVarianceFormula (budgetCents actualCents : Int) :
    (calculateBudgetVariance budgetCents actualCents).1 = budgetCents - actualCents
    ∧ (budgetCents = 0 → (calculateBudgetVariance budgetCents actualCents).2 = 0)
    ∧ (budgetCents ≠ 0 → (calculateBudgetVariance budgetCents actualCents).2
        = round2 (((actualCents : ℚ) / (budgetCents : ℚ)) * 100)) := by
  refine ⟨rfl, fun h => by simp [calculateBudgetVariance, h],
    fun h => by simp [calculateBudgetVariance, h]⟩

/-- Witness for the amended claim C8, at the specification's example:
budget 10000 and actual 12500 give variance -2500 and utilization 125. -/
theorem budgetVarianceFormulaWitness :
    (calculateBudgetVariance 10000 12500).1 = -2500
    ∧ (calculateBudgetVariance 10000 12500).2 = 125 := by
  have h := budgetVarianceFormula 10000 12500
  refine ⟨by rw [h.1]; norm_num, ?_⟩
  rw [h.2.2 (by norm_num)]
  norm_num [round2, round_eq]

end LedgerDesk
